import Mathlib

/-
  Verification of the replize REPL core (src/replize/replize.py).

  The embedding models the session loop `_run_repl_loop`, the builtin
  dispatcher `_handle_builtin_command`, and the helpers they rely on
  (Python's str.strip / str.split / int() and shlex.split in posix mode).
  Strings are lists of characters; one loop iteration is a pure step
  function from session state and a line-reader event to a new state plus
  a trace of observable events; the subprocess world is an oracle mapping
  an argument vector to the spawn outcome.
-/

namespace Replize

/-- Python strings are modelled as lists of characters. -/
abbrev Str := List Char

/-- Whitespace recognized by Python's str.strip() / str.split()
    (ASCII subset: space, tab, newline, carriage return, vertical tab,
    form feed; non-ASCII Unicode whitespace is not modelled). -/
def isPyWS (c : Char) : Bool :=
  c = ' ' || c = '\t' || c = '\n' || c = '\r' || c = Char.ofNat 11 || c = Char.ofNat 12

/-- Whitespace recognized by shlex (shlex.whitespace is exactly these four). -/
def isShlexWS (c : Char) : Bool :=
  c = ' ' || c = '\t' || c = '\r' || c = '\n'

/-- Model of Python str.strip(): drop leading and trailing whitespace. -/
def pyStrip (l : Str) : Str :=
  ((l.dropWhile isPyWS).reverse.dropWhile isPyWS).reverse

/-- Helper for pySplit: cur is the token accumulated so far. -/
def pySplitAux : Str → Str → List Str
  | cur, [] => if cur = [] then [] else [cur]
  | cur, c :: rest =>
    if isPyWS c then
      (if cur = [] then pySplitAux [] rest else cur :: pySplitAux [] rest)
    else pySplitAux (cur ++ [c]) rest

/-- Model of Python str.split() with no arguments: split on runs of
    whitespace, never producing empty tokens. -/
def pySplit (l : Str) : List Str := pySplitAux [] l

/-- ASCII decimal digit test (char codes 48..57). -/
def isAsciiDigit (c : Char) : Bool :=
  48 ≤ c.toNat && c.toNat ≤ 57

/-- Numeric value of a digit run, skipping underscores. -/
def digitsVal (l : List Char) : Nat :=
  l.foldl (fun a c => if c = '_' then a else a * 10 + (c.toNat - 48)) 0

/-- Scanner for the tail of a Python integer literal digit run, after at
    least one digit has been seen.  The Boolean argument records whether
    the previous character was an underscore: underscores may only appear
    singly and between digits, so an underscore may not follow an
    underscore and may not end the run. -/
def validDigitsFrom : Bool → List Char → Bool
  | afterUnderscore, [] => !afterUnderscore
  | afterUnderscore, x :: rest =>
    if isAsciiDigit x then validDigitsFrom false rest
    else if x = '_' then (if afterUnderscore then false else validDigitsFrom true rest)
    else false

/-- A valid Python integer digit run: nonempty, starts with a digit,
    underscores only between digits. -/
def validDigitRun : List Char → Bool
  | [] => false
  | c :: rest => isAsciiDigit c && validDigitsFrom false rest

/-- Model of Python int(s) on ASCII text: strip whitespace, optional sign,
    then a digit run with optional single underscores between digits.
    Returns none where CPython raises ValueError.  (CPython additionally
    accepts non-ASCII Unicode decimal digits; not modelled, no claim
    depends on it.) -/
def pyInt (l : Str) : Option Int :=
  match pyStrip l with
  | [] => none
  | c :: rest =>
    if c = '+' then (if validDigitRun rest then some (digitsVal rest : Int) else none)
    else if c = '-' then (if validDigitRun rest then some (-(digitsVal rest : Int)) else none)
    else if validDigitRun (c :: rest) then some (digitsVal (c :: rest) : Int) else none

/-- The single-quote character, written by code to avoid a quoted literal. -/
def squoteChar : Char := Char.ofNat 39

/-- Lexer modes of shlex in posix mode with whitespace_split: top level,
    backslash escape at top level, inside single quotes, inside double
    quotes, backslash escape inside double quotes. -/
inductive LexMode where
  | norm
  | esc
  | sq
  | dq
  | dqEsc
  deriving DecidableEq

/-- State of the shlex lexer: emitted tokens, current token, whether a
    token has been started (so that quoted empty strings emit a token),
    and the mode. -/
structure LexState where
  toks : List Str
  cur : Str
  hasTok : Bool
  mode : LexMode
  deriving DecidableEq

/-- One character of shlex.split (posix=True, whitespace_split=True):
    whitespace separates tokens; backslash escapes the next character;
    single quotes are literal until the closing quote; inside double
    quotes a backslash escapes only the double quote and the backslash
    itself (otherwise the backslash is kept). -/
def lexStep (st : LexState) (c : Char) : LexState :=
  match st.mode with
  | .norm =>
    if isShlexWS c then
      (if st.hasTok then ⟨st.toks ++ [st.cur], [], false, .norm⟩ else ⟨st.toks, [], false, .norm⟩)
    else if c = '\\' then ⟨st.toks, st.cur, st.hasTok, .esc⟩
    else if c = squoteChar then ⟨st.toks, st.cur, true, .sq⟩
    else if c = '"' then ⟨st.toks, st.cur, true, .dq⟩
    else ⟨st.toks, st.cur ++ [c], true, .norm⟩
  | .esc => ⟨st.toks, st.cur ++ [c], true, .norm⟩
  | .sq =>
    if c = squoteChar then ⟨st.toks, st.cur, st.hasTok, .norm⟩
    else ⟨st.toks, st.cur ++ [c], st.hasTok, .sq⟩
  | .dq =>
    if c = '"' then ⟨st.toks, st.cur, st.hasTok, .norm⟩
    else if c = '\\' then ⟨st.toks, st.cur, st.hasTok, .dqEsc⟩
    else ⟨st.toks, st.cur ++ [c], st.hasTok, .dq⟩
  | .dqEsc =>
    if c = '"' || c = '\\' then ⟨st.toks, st.cur ++ [c], st.hasTok, .dq⟩
    else ⟨st.toks, st.cur ++ ['\\', c], st.hasTok, .dq⟩

/-- Initial lexer state. -/
def lexInit : LexState := ⟨[], [], false, .norm⟩

/-- End-of-input behaviour of shlex.split: a pending escape raises
    ValueError("No escaped character"), an open quote raises
    ValueError("No closing quotation"), otherwise the pending token (if
    one was started) is flushed. -/
def lexFinish (st : LexState) : Except String (List Str) :=
  match st.mode with
  | .norm => .ok (if st.hasTok then st.toks ++ [st.cur] else st.toks)
  | .esc => .error ("No escaped character")
  | .sq => .error ("No closing quotation")
  | .dq => .error ("No closing quotation")
  | .dqEsc => .error ("No escaped character")

/-- Model of shlex.split(s) in posix mode, as called by the loop
    (`from shlex import split as shlex_split`). -/
def shlexSplit (l : Str) : Except String (List Str) :=
  lexFinish (l.foldl lexStep lexInit)

/-- Observable effects of one loop iteration. -/
inductive Event where
  | logInput (line : Str)
  | printedHelp
  | printedHistory
  | clearedScreen
  | reportInvalidHistoryRef (tok : Str)
  | rerunAnnounce (entry : Str)
  | reportOutOfRange (index : Int)
  | preHookError (msg : String)
  | spawn (argv : List Str)
  | killChild
  | reportTimedOut (timeout : Option Nat)
  | stdoutOut (b : Str)
  | stderrOut (b : Str)
  | logText (b : Str)
  | reportReturnCode (rc : Int)
  | postHookError (msg : String)
  | reportCommandNotFound (full : Str)
  | reportExecError (msg : String)
  deriving DecidableEq

/-- A pre-command hook: receives (base command, line); some msg models the
    hook raising an exception with that message. -/
abbrev PreHook := Str → Str → Option String

/-- A post-command hook: receives (base command, line, return code,
    stdout, stderr); some msg models a raised exception. -/
abbrev PostHook := Str → Str → Int → Str → Str → Option String

/-- The session configuration fields the loop reads (ReplizeConfig in the
    source, restricted to what `_run_repl_loop` and
    `_handle_builtin_command` use). -/
structure ReplizeConfig where
  command : Str
  exitCommands : List Str
  timeout : Option Nat
  preCommandHooks : List PreHook
  postCommandHooks : List PostHook
  showReturnCode : Bool
  logEnabled : Bool

/-- Mutable session state owned by the loop. -/
structure SessState where
  counter : Nat
  history : List Str
  deriving DecidableEq

/-- Outcome of attempting Popen + communicate on an argument vector:
    either the child spawns and runs for `runtime` seconds producing the
    given outputs and return code (with the outputs that would be
    collectable after a kill), or Popen raises FileNotFoundError, or
    Popen raises some other exception. -/
inductive SpawnResult where
  | ok (runtime : Nat) (stdout stderr : Str) (returncode : Int) (postKillStdout postKillStderr : Str)
  | fileNotFound
  | raiseOther (msg : String)

/-- The external process world: what happens for a given argument vector. -/
abbrev SpawnOracle := List Str → SpawnResult

/-- Python exception classes appearing in the executor's try/except chain. -/
inductive PyExc where
  | timeoutExpired
  | fileNotFoundError
  | valueError
  deriving DecidableEq

/-- Whether `except TimeoutError` catches the exception.  In CPython,
    subprocess.TimeoutExpired derives from SubprocessError, which derives
    from Exception; the builtin TimeoutError is an OSError subclass and is
    NOT an ancestor of TimeoutExpired.  So the handler at source line 483
    never catches the exception communicate raises on timeout. -/
def caughtByTimeoutError : PyExc → Bool
  | .timeoutExpired => false
  | .fileNotFoundError => false
  | .valueError => false

/-- Whether `except FileNotFoundError` catches the exception. -/
def caughtByFileNotFound : PyExc → Bool
  | .timeoutExpired => false
  | .fileNotFoundError => true
  | .valueError => false

/-- communicate(timeout=T) raises TimeoutExpired exactly when a timeout is
    configured and the child's runtime exceeds it. -/
def timesOut : Option Nat → Nat → Bool
  | none, _ => false
  | some t, runtime => t < runtime

/-- Log echo of the input line (source lines 425-427), emitted only when a
    log file is open. -/
def logEvents (cfg : ReplizeConfig) (argumentsStr : Str) : List Event :=
  if cfg.logEnabled then [Event.logInput argumentsStr] else []

/-- Pre-command hooks (source lines 461-468): each hook is called in
    registration order; a raised exception is caught per hook and
    reported, and never stops the remaining hooks. -/
def preHookEvents (cfg : ReplizeConfig) (argumentsStr : Str) : List Event :=
  cfg.preCommandHooks.filterMap
    (fun h => (h cfg.command argumentsStr).map Event.preHookError)

/-- Post-command hooks (source lines 511-518), same catch-per-hook shape. -/
def postHookEvents (cfg : ReplizeConfig) (argumentsStr : Str) (rc : Int) (out err : Str) :
    List Event :=
  cfg.postCommandHooks.filterMap
    (fun h => (h cfg.command argumentsStr rc out err).map Event.postHookError)

/-- Everything after communicate returns (source lines 492-518): route
    nonempty stdout/stderr to the callbacks and the log, optionally show a
    nonzero return code, then run the post-command hooks. -/
def afterWait (cfg : ReplizeConfig) (argumentsStr out err : Str) (rc : Int) : List Event :=
  (if out ≠ [] then
     Event.stdoutOut out :: (if cfg.logEnabled then [Event.logText out] else [])
   else []) ++
  (if err ≠ [] then
     Event.stderrOut err :: (if cfg.logEnabled then [Event.logText err] else [])
   else []) ++
  (if cfg.showReturnCode ∧ rc ≠ 0 then [Event.reportReturnCode rc] else []) ++
  postHookEvents cfg argumentsStr rc out err

/-- The execution phase (source lines 470-529).  full_command is the base
    command, a space, and the argument string; shlex_split runs inside the
    Popen(...) call, so its ValueError lands in the generic
    `except Exception` handler.  On a timeout, communicate raises
    subprocess.TimeoutExpired; the `except TimeoutError` handler (kill,
    re-collect output, report a timeout) does not match it, so control
    falls to `except Exception`, which reports a generic execution error;
    output routing and post hooks are skipped and the child is not
    killed. -/
def runExecution (cfg : ReplizeConfig) (oracle : SpawnOracle) (argumentsStr : Str) :
    List Event :=
  match shlexSplit (cfg.command ++ ' ' :: argumentsStr) with
  | .error msg => [Event.reportExecError msg]
  | .ok argv =>
    match oracle argv with
    | .fileNotFound => [Event.reportCommandNotFound (cfg.command ++ ' ' :: argumentsStr)]
    | .raiseOther msg => [Event.reportExecError msg]
    | .ok runtime out err rc pkOut pkErr =>
      Event.spawn argv ::
        (if timesOut cfg.timeout runtime then
          (if caughtByTimeoutError .timeoutExpired then
            Event.killChild :: Event.reportTimedOut cfg.timeout ::
              afterWait cfg argumentsStr pkOut pkErr (-9)
          else if caughtByFileNotFound .timeoutExpired then
            [Event.reportCommandNotFound (cfg.command ++ ' ' :: argumentsStr)]
          else
            [Event.reportExecError ("subprocess.TimeoutExpired")])
        else afterWait cfg argumentsStr out err rc)

/-- Model of `_handle_builtin_command` (source lines 315-359): help/?,
    history and clear are handled outright; a first token of the shape
    `!<text>` is handled (with an error report) only when int(text) raises
    ValueError; when int(text) parses, both the in-range branch
    ("let it be re-executed") and the out-of-range fall-through return
    False, so the line is not handled here. -/
def handleBuiltin (history : List Str) (argumentsStr : Str) : Option (List Event) :=
  match pySplit argumentsStr with
  | [] => none
  | cmd :: _ =>
    if cmd = ['h', 'e', 'l', 'p'] ∨ cmd = ['?'] then some [Event.printedHelp]
    else if cmd = ['h', 'i', 's', 't', 'o', 'r', 'y'] then some [Event.printedHistory]
    else if cmd = ['c', 'l', 'e', 'a', 'r'] then some [Event.clearedScreen]
    else
      match cmd with
      | [] => none
      | c :: rest =>
        if c = '!' then
          (if rest = [] then none
           else
             match pyInt rest with
             | some _ => none
             | none => some [Event.reportInvalidHistoryRef (c :: rest)])
        else none

/-- Outcome of the history-rewrite block (source lines 439-455): either
    the iteration continues with no execution (index out of range), or it
    proceeds with a possibly rewritten line. -/
inductive RewriteOut where
  | halt (evs : List Event)
  | proceed (argumentsStr : Str) (evs : List Event)
  deriving DecidableEq

/-- History rewrite: a whole line of the shape `!<text>` where int(text)
    parses to an in-range index is replaced by the stored entry (with a
    re-running announcement); an out-of-range index is reported and the
    iteration continues; a ValueError leaves the line untouched
    ("Not a history reference, treat as normal command"). -/
def histRewrite (history : List Str) (argumentsStr : Str) : RewriteOut :=
  match argumentsStr with
  | [] => .proceed [] []
  | c :: rest =>
    if c = '!' then
      (if rest = [] then .proceed (c :: rest) []
       else
         match pyInt rest with
         | some index =>
           if 0 ≤ index ∧ index < (history.length : Int) then
             .proceed (history.getD index.toNat [])
               [Event.rerunAnnounce (history.getD index.toNat [])]
           else .halt [Event.reportOutOfRange index]
         | none => .proceed (c :: rest) [])
    else .proceed (c :: rest) []

/-- What the line reader produced: a raw line, or a raised exception that
    is in the configured exit-exception set (EOFError / KeyboardInterrupt
    by default), caught by the loop's outer handler. -/
inductive InputEvent where
  | line (raw : Str)
  | exitSignal
  deriving DecidableEq

/-- Result of one loop iteration. -/
structure StepOut where
  exitLoop : Bool
  st : SessState
  events : List Event
  deriving DecidableEq

/-- The tail of an iteration once a line is dispatched to execution
    (source lines 457-532): append the line to the session history, run
    the pre-command hooks, execute, and increment the command counter
    regardless of the execution outcome. -/
def execPhase (cfg : ReplizeConfig) (oracle : SpawnOracle) (st : SessState)
    (argumentsStr : Str) (prevEvents : List Event) : StepOut :=
  ⟨false, ⟨st.counter + 1, st.history ++ [argumentsStr]⟩,
    prevEvents ++ preHookEvents cfg argumentsStr ++ runExecution cfg oracle argumentsStr⟩

/-- One iteration of the loop body on an already stripped line (source
    lines 421-532): skip empty input; log the line; break on an exit
    word; dispatch builtins; apply the history rewrite; execute. -/
def replLine (cfg : ReplizeConfig) (oracle : SpawnOracle) (st : SessState)
    (argumentsStr : Str) : StepOut :=
  if argumentsStr = [] then ⟨false, st, []⟩
  else if (pySplit argumentsStr).headD [] ∈ cfg.exitCommands then
    ⟨true, st, logEvents cfg argumentsStr⟩
  else
    match handleBuiltin st.history argumentsStr with
    | some evs => ⟨false, st, logEvents cfg argumentsStr ++ evs⟩
    | none =>
      match histRewrite st.history argumentsStr with
      | .halt evs => ⟨false, st, logEvents cfg argumentsStr ++ evs⟩
      | .proceed s evs => execPhase cfg oracle st s (logEvents cfg argumentsStr ++ evs)

/-- One full iteration of `_run_repl_loop`'s while body: an exit signal
    from the reader breaks the loop; a line is stripped and dispatched. -/
def replStep (cfg : ReplizeConfig) (oracle : SpawnOracle) (st : SessState)
    (ev : InputEvent) : StepOut :=
  match ev with
  | .exitSignal => ⟨true, st, []⟩
  | .line raw => replLine cfg oracle st (pyStrip raw)

/-- Why a finite run of the loop stopped. -/
inductive ExitReason where
  | ended
  | inputsExhausted
  deriving DecidableEq

/-- Result of running the loop on a finite script of reader events. -/
structure LoopResult where
  st : SessState
  events : List Event
  reason : ExitReason
  deriving DecidableEq

/-- Run the loop over a finite list of reader events. -/
def runLoop (cfg : ReplizeConfig) (oracle : SpawnOracle) :
    SessState → List InputEvent → LoopResult
  | st, [] => ⟨st, [], .inputsExhausted⟩
  | st, ev :: rest =>
    let out := replStep cfg oracle st ev
    if out.exitLoop then ⟨out.st, out.events, .ended⟩
    else
      let r := runLoop cfg oracle out.st rest
      ⟨r.st, out.events ++ r.events, r.reason⟩

/-- Model of the replize entry point around the loop (source lines
    296-306): when a log file is configured, it is opened before the loop
    starts and a failure there propagates to the caller; otherwise the
    loop runs. -/
def replizeSession (cfg : ReplizeConfig) (oracle : SpawnOracle) (logOpenFails : Bool)
    (inputs : List InputEvent) : Except String LoopResult :=
  if cfg.logEnabled ∧ logOpenFails then .error ("log open failed")
  else .ok (runLoop cfg oracle ⟨0, []⟩ inputs)

/-- Argument vectors of the spawn events in a trace, in order. -/
def spawnArgvs (evs : List Event) : List (List Str) :=
  evs.filterMap (fun e => match e with | .spawn a => some a | _ => none)

/-- Entries of the re-running announcements in a trace, in order. -/
def announces (evs : List Event) : List Str :=
  evs.filterMap (fun e => match e with | .rerunAnnounce a => some a | _ => none)

/-- Messages of the pre-command hook error reports in a trace, in order. -/
def preErrors (evs : List Event) : List String :=
  evs.filterMap (fun e => match e with | .preHookError m => some m | _ => none)

/-- Messages of the post-command hook error reports in a trace, in order. -/
def postErrors (evs : List Event) : List String :=
  evs.filterMap (fun e => match e with | .postHookError m => some m | _ => none)

/-- Prepend already-emitted tokens to a lexer state (auxiliary notion used
    to relate the lexer run on a concatenation to its runs on the parts). -/
def withToks (ts : List Str) (st : LexState) : LexState :=
  ⟨ts ++ st.toks, st.cur, st.hasTok, st.mode⟩

/-- A default-like configuration for the base command echo. -/
def cfgEcho : ReplizeConfig :=
  ⟨"echo".toList, ["exit".toList, "quit".toList], none, [], [], false, false⟩

/-- An oracle under which every spawn completes immediately with output. -/
def oracleEcho : SpawnOracle := fun _ => .ok 0 ("arg1\n".toList) [] 0 [] []

/-- A default-like configuration for the base command ls. -/
def cfgLs : ReplizeConfig :=
  ⟨"ls".toList, ["exit".toList, "quit".toList], none, [], [], false, false⟩

/-- An oracle under which ls completes immediately. -/
def oracleLs : SpawnOracle := fun _ => .ok 0 ("total 8\n".toList) [] 0 [] []

/-- The scenario input script from the spec: -l, then !0, then exit. -/
def lsInputs : List InputEvent :=
  [.line ("-l".toList), .line ("!0".toList), .line ("exit".toList)]

/-- The full run of the spec scenario. -/
def lsRun : LoopResult := runLoop cfgLs oracleLs ⟨0, []⟩ lsInputs

/-- A configuration with a one-second subprocess timeout for sleep. -/
def cfgSleep : ReplizeConfig :=
  ⟨"sleep".toList, ["exit".toList, "quit".toList], some 1, [], [], false, false⟩

/-- An oracle under which the child runs five seconds, exceeding the
    configured one-second timeout. -/
def oracleSleep : SpawnOracle := fun _ => .ok 5 [] [] 0 [] []

/-- A pre-command hook that raises. -/
def preHookBoom : PreHook := fun _ _ => some ("pre boom")

/-- A pre-command hook that succeeds. -/
def preHookOk : PreHook := fun _ _ => none

/-- A post-command hook that raises. -/
def postHookBoom : PostHook := fun _ _ _ _ _ => some ("post boom")

/-- A post-command hook that succeeds. -/
def postHookOk : PostHook := fun _ _ _ _ _ => none

/-- A configuration with a failing hook between succeeding ones. -/
def cfgHooks : ReplizeConfig :=
  ⟨"echo".toList, ["exit".toList, "quit".toList], none,
    [preHookOk, preHookBoom, preHookOk], [postHookBoom, postHookOk], false, false⟩

/-- An oracle under which Popen raises FileNotFoundError. -/
def oracleFnf : SpawnOracle := fun _ => .fileNotFound

/-- An ASCII digit is not an underscore. -/
lemma digit_ne_underscore {c : Char} (h : isAsciiDigit c = true) : c ≠ '_' := by
  intro hc
  subst hc
  exact absurd h (by decide)

/-- An ASCII digit is not a plus sign. -/
lemma digit_ne_plus {c : Char} (h : isAsciiDigit c = true) : c ≠ '+' := by
  intro hc
  subst hc
  exact absurd h (by decide)

/-- An ASCII digit is not a minus sign. -/
lemma digit_ne_minus {c : Char} (h : isAsciiDigit c = true) : c ≠ '-' := by
  intro hc
  subst hc
  exact absurd h (by decide)

/-- An ASCII digit is not Python whitespace. -/
lemma digit_not_ws {c : Char} (h : isAsciiDigit c = true) : isPyWS c = false := by
  rcases Decidable.eq_or_ne c ' ' with rfl | h1
  · exact absurd h (by decide)
  rcases Decidable.eq_or_ne c '\t' with rfl | h2
  · exact absurd h (by decide)
  rcases Decidable.eq_or_ne c '\n' with rfl | h3
  · exact absurd h (by decide)
  rcases Decidable.eq_or_ne c '\r' with rfl | h4
  · exact absurd h (by decide)
  rcases Decidable.eq_or_ne c (Char.ofNat 11) with rfl | h5
  · exact absurd h (by decide)
  rcases Decidable.eq_or_ne c (Char.ofNat 12) with rfl | h6
  · exact absurd h (by decide)
  simp [isPyWS, h1, h2, h3, h4, h5, h6]

/-- Stripping an all-whitespace string yields the empty string. -/
lemma pyStrip_all_ws {l : Str} (h : ∀ c ∈ l, isPyWS c = true) : pyStrip l = [] := by
  have h1 : l.dropWhile isPyWS = [] := by
    rw [List.dropWhile_eq_nil_iff]
    exact fun c hc => h c hc
  simp [pyStrip, h1]

/-- A string whose first and last characters are not whitespace is a fixed
    point of pyStrip. -/
lemma pyStrip_sandwich {x y : Char} (mid : Str)
    (hx : isPyWS x = false) (hy : isPyWS y = false) :
    pyStrip (x :: (mid ++ [y])) = x :: (mid ++ [y]) := by
  unfold pyStrip
  rw [List.dropWhile_cons, hx]
  simp only [Bool.false_eq_true, if_false, List.reverse_cons, List.reverse_append,
    List.reverse_cons, List.reverse_nil, List.nil_append, List.singleton_append,
    List.cons_append, List.dropWhile_cons, hy, Bool.false_eq_true, if_false]
  simp

/-- Splitting a nonempty whitespace-free string yields the string itself
    as the only token (auxiliary version with an accumulator). -/
lemma pySplitAux_no_ws (l : Str) :
    ∀ cur : Str, (∀ c ∈ l, isPyWS c = false) → cur ++ l ≠ [] →
      pySplitAux cur l = [cur ++ l] := by
  induction l with
  | nil =>
    intro cur _ hne
    simp only [List.append_nil] at hne ⊢
    simp [pySplitAux, hne]
  | cons c rest ih =>
    intro cur hws _
    have hc : isPyWS c = false := hws c (by simp)
    simp only [pySplitAux, hc, Bool.false_eq_true, if_false]
    rw [ih (cur ++ [c]) (fun x hx => hws x (by simp [hx])) (by simp)]
    simp

/-- Splitting a nonempty whitespace-free string yields one token. -/
lemma pySplit_no_ws {l : Str} (hne : l ≠ []) (hws : ∀ c ∈ l, isPyWS c = false) :
    pySplit l = [l] := by
  have := pySplitAux_no_ws l [] hws (by simpa using hne)
  simpa [pySplit] using this

/-- Splitting a whitespace-free token followed by a whitespace character
    peels off that token (auxiliary version with an accumulator). -/
lemma pySplitAux_token_ws {w : Char} (hw : isPyWS w = true) (r : Str) (a : Str) :
    ∀ cur : Str, (∀ c ∈ a, isPyWS c = false) → cur ++ a ≠ [] →
      pySplitAux cur (a ++ w :: r) = (cur ++ a) :: pySplitAux [] r := by
  induction a with
  | nil =>
    intro cur _ hne
    simp only [List.append_nil] at hne ⊢
    simp [pySplitAux, hw, hne]
  | cons c rest ih =>
    intro cur hws _
    have hc : isPyWS c = false := hws c (by simp)
    simp only [List.cons_append, pySplitAux, hc, Bool.false_eq_true, if_false,
      List.append_eq]
    rw [ih (cur ++ [c]) (fun x hx => hws x (by simp [hx])) (by simp)]
    simp

/-- The first token of token-whitespace-rest is the token. -/
lemma pySplit_token_head {w : Char} {a : Str} (hw : isPyWS w = true) (r : Str)
    (hne : a ≠ []) (hws : ∀ c ∈ a, isPyWS c = false) :
    pySplit (a ++ w :: r) = a :: pySplit r := by
  have := pySplitAux_token_ws hw r a [] hws (by simpa using hne)
  simpa [pySplit] using this

/-- Unfolding equation for validDigitRun on a cons cell. -/
lemma validDigitRun_cons (c : Char) (l : List Char) :
    validDigitRun (c :: l) = (isAsciiDigit c && validDigitsFrom false l) := rfl

/-- A digit run followed by a space is not a valid integer-literal tail. -/
lemma validDigitsFrom_ws (r : Str) :
    ∀ (l : Str) (b : Bool), (∀ x ∈ l, isAsciiDigit x = true) →
      validDigitsFrom b (l ++ ' ' :: r) = false := by
  intro l
  induction l with
  | nil =>
    intro b _
    rw [List.nil_append]
    simp only [validDigitsFrom]
    rw [if_neg (by decide), if_neg (by decide)]
  | cons x rest ih =>
    intro b hd
    have hx : isAsciiDigit x = true := hd x (by simp)
    rw [List.cons_append]
    simp only [validDigitsFrom, hx, if_true]
    exact ih false (fun y hy => hd y (by simp [hy]))

/-- Python int() fails on a digit run followed by a space and trailing
    text ending in a non-whitespace character. -/
lemma pyInt_digits_ws_none {d : Str} (r0 : Str) {c : Char}
    (hd : d ≠ []) (hdig : ∀ x ∈ d, isAsciiDigit x = true) (hc : isPyWS c = false) :
    pyInt (d ++ ' ' :: (r0 ++ [c])) = none := by
  obtain ⟨d0, d', rfl⟩ : ∃ d0 d', d = d0 :: d' := by
    cases d with
    | nil => exact absurd rfl hd
    | cons d0 d' => exact ⟨d0, d', rfl⟩
  have hd0 : isAsciiDigit d0 = true := hdig d0 (by simp)
  have hshape : (d0 :: d') ++ ' ' :: (r0 ++ [c]) = d0 :: ((d' ++ ' ' :: r0) ++ [c]) := by
    simp
  rw [hshape]
  unfold pyInt
  rw [pyStrip_sandwich (d' ++ ' ' :: r0) (digit_not_ws hd0) hc]
  have hrun : validDigitRun (d0 :: ((d' ++ ' ' :: r0) ++ [c])) = false := by
    have harr : (d' ++ ' ' :: r0) ++ [c] = d' ++ ' ' :: (r0 ++ [c]) := by simp
    rw [validDigitRun_cons, harr, validDigitsFrom_ws (r0 ++ [c]) d' false
      (fun y hy => hdig y (by simp [hy]))]
    simp
  simp only [if_neg (digit_ne_plus hd0), if_neg (digit_ne_minus hd0), hrun,
    Bool.false_eq_true, if_false]

/-- One lexer step commutes with prepending already-emitted tokens. -/
lemma lexStep_withToks (ts : List Str) (st : LexState) (c : Char) :
    lexStep (withToks ts st) c = withToks ts (lexStep st c) := by
  obtain ⟨tk, cur, h, m⟩ := st
  cases m <;> simp [lexStep, withToks] <;> split_ifs <;> simp

/-- A lexer run commutes with prepending already-emitted tokens. -/
lemma foldl_lexStep_withToks (ts : List Str) (l : Str) :
    ∀ st : LexState, l.foldl lexStep (withToks ts st) = withToks ts (l.foldl lexStep st) := by
  induction l with
  | nil => intro st; rfl
  | cons c l ih =>
    intro st
    simp only [List.foldl_cons, lexStep_withToks, ih]

/-- shlex.split on a string of the form a-space-b, when a parses cleanly,
    tokenizes a and b independently and concatenates the token lists. -/
lemma shlexSplit_append {a : Str} (b : Str) {ts : List Str}
    (ha : shlexSplit a = .ok ts) :
    shlexSplit (a ++ ' ' :: b) = (shlexSplit b).map (fun bs => ts ++ bs) := by
  unfold shlexSplit at ha ⊢
  rw [List.foldl_append]
  rcases hF : a.foldl lexStep lexInit with ⟨tk, cur, h, m⟩
  rw [hF] at ha
  cases m with
  | esc => simp [lexFinish] at ha
  | sq => simp [lexFinish] at ha
  | dq => simp [lexFinish] at ha
  | dqEsc => simp [lexFinish] at ha
  | norm =>
    simp only [lexFinish, Except.ok.injEq] at ha
    have hstep : lexStep ⟨tk, cur, h, .norm⟩ ' ' = withToks ts lexInit := by
      cases h <;> simp_all [lexStep, withToks, lexInit, isShlexWS]
    rw [List.foldl_cons, hstep, foldl_lexStep_withToks]
    rcases hG : b.foldl lexStep lexInit with ⟨tk2, cur2, h2, m2⟩
    cases m2 <;> cases h2 <;> simp [lexFinish, withToks, Except.map]

/-- Extracting events of one kind from hook reports of another kind gives
    nothing. -/
lemma filterMap_reports_nil {α β γ : Type} (f : α → Option β) (g : β → Event)
    (ext : Event → Option γ) (hg : ∀ b, ext (g b) = none) (l : List α) :
    (l.filterMap (fun x => (f x).map g)).filterMap ext = [] := by
  induction l with
  | nil => rfl
  | cons x t ih => cases hfx : f x <;> simp [List.filterMap_cons, hfx, hg, ih]

/-- Extracting the payloads back out of a list of hook reports returns the
    hook results. -/
lemma filterMap_reports_eq {α β : Type} (f : α → Option β) (g : β → Event)
    (ext : Event → Option β) (hg : ∀ b, ext (g b) = some b) (l : List α) :
    (l.filterMap (fun x => (f x).map g)).filterMap ext = l.filterMap f := by
  induction l with
  | nil => rfl
  | cons x t ih => cases hfx : f x <;> simp [List.filterMap_cons, hfx, hg, ih]

/-- spawnArgvs distributes over trace concatenation. -/
lemma spawnArgvs_append (a b : List Event) :
    spawnArgvs (a ++ b) = spawnArgvs a ++ spawnArgvs b := by
  simp [spawnArgvs]

/-- announces distributes over trace concatenation. -/
lemma announces_append (a b : List Event) :
    announces (a ++ b) = announces a ++ announces b := by
  simp [announces]

/-- preErrors distributes over trace concatenation. -/
lemma preErrors_append (a b : List Event) :
    preErrors (a ++ b) = preErrors a ++ preErrors b := by
  simp [preErrors]

/-- postErrors distributes over trace concatenation. -/
lemma postErrors_append (a b : List Event) :
    postErrors (a ++ b) = postErrors a ++ postErrors b := by
  simp [postErrors]

/-- The log echo spawns nothing. -/
lemma spawnArgvs_logEvents (cfg : ReplizeConfig) (s : Str) :
    spawnArgvs (logEvents cfg s) = [] := by
  by_cases h : cfg.logEnabled <;> simp [logEvents, h, spawnArgvs]

/-- The log echo announces no re-run. -/
lemma announces_logEvents (cfg : ReplizeConfig) (s : Str) :
    announces (logEvents cfg s) = [] := by
  by_cases h : cfg.logEnabled <;> simp [logEvents, h, announces]

/-- The log echo reports no pre-hook error. -/
lemma preErrors_logEvents (cfg : ReplizeConfig) (s : Str) :
    preErrors (logEvents cfg s) = [] := by
  by_cases h : cfg.logEnabled <;> simp [logEvents, h, preErrors]

/-- The log echo reports no post-hook error. -/
lemma postErrors_logEvents (cfg : ReplizeConfig) (s : Str) :
    postErrors (logEvents cfg s) = [] := by
  by_cases h : cfg.logEnabled <;> simp [logEvents, h, postErrors]

/-- Pre-command hook reports spawn nothing. -/
lemma spawnArgvs_preHookEvents (cfg : ReplizeConfig) (s : Str) :
    spawnArgvs (preHookEvents cfg s) = [] :=
  filterMap_reports_nil _ _ _ (fun _ => rfl) _

/-- Pre-command hook reports announce nothing. -/
lemma announces_preHookEvents (cfg : ReplizeConfig) (s : Str) :
    announces (preHookEvents cfg s) = [] :=
  filterMap_reports_nil _ _ _ (fun _ => rfl) _

/-- Pre-command hook reports carry no post-hook error. -/
lemma postErrors_preHookEvents (cfg : ReplizeConfig) (s : Str) :
    postErrors (preHookEvents cfg s) = [] :=
  filterMap_reports_nil _ _ _ (fun _ => rfl) _

/-- The pre-hook error reports are exactly the failures of all registered
    pre-command hooks, in registration order. -/
lemma preErrors_preHookEvents (cfg : ReplizeConfig) (s : Str) :
    preErrors (preHookEvents cfg s) =
      cfg.preCommandHooks.filterMap (fun h => h cfg.command s) := by
  unfold preErrors preHookEvents
  exact filterMap_reports_eq _ Event.preHookError _ (fun _ => rfl) _

/-- Post-command hook reports spawn nothing. -/
lemma spawnArgvs_postHookEvents (cfg : ReplizeConfig) (s : Str) (rc : Int) (out err : Str) :
    spawnArgvs (postHookEvents cfg s rc out err) = [] :=
  filterMap_reports_nil _ _ _ (fun _ => rfl) _

/-- Post-command hook reports announce nothing. -/
lemma announces_postHookEvents (cfg : ReplizeConfig) (s : Str) (rc : Int) (out err : Str) :
    announces (postHookEvents cfg s rc out err) = [] :=
  filterMap_reports_nil _ _ _ (fun _ => rfl) _

/-- Post-command hook reports carry no pre-hook error. -/
lemma preErrors_postHookEvents (cfg : ReplizeConfig) (s : Str) (rc : Int) (out err : Str) :
    preErrors (postHookEvents cfg s rc out err) = [] :=
  filterMap_reports_nil _ _ _ (fun _ => rfl) _

/-- The post-hook error reports are exactly the failures of all registered
    post-command hooks, in registration order. -/
lemma postErrors_postHookEvents (cfg : ReplizeConfig) (s : Str) (rc : Int) (out err : Str) :
    postErrors (postHookEvents cfg s rc out err) =
      cfg.postCommandHooks.filterMap (fun h => h cfg.command s rc out err) := by
  unfold postErrors postHookEvents
  exact filterMap_reports_eq _ Event.postHookError _ (fun _ => rfl) _

/-- Output routing and post hooks spawn nothing. -/
lemma spawnArgvs_afterWait (cfg : ReplizeConfig) (s out err : Str) (rc : Int) :
    spawnArgvs (afterWait cfg s out err rc) = [] := by
  unfold afterWait
  rw [spawnArgvs_append, spawnArgvs_append, spawnArgvs_append,
    spawnArgvs_postHookEvents]
  split_ifs <;> simp [spawnArgvs]

/-- Output routing and post hooks announce nothing. -/
lemma announces_afterWait (cfg : ReplizeConfig) (s out err : Str) (rc : Int) :
    announces (afterWait cfg s out err rc) = [] := by
  unfold afterWait
  rw [announces_append, announces_append, announces_append,
    announces_postHookEvents]
  split_ifs <;> simp [announces]

/-- Output routing and post hooks report no pre-hook error. -/
lemma preErrors_afterWait (cfg : ReplizeConfig) (s out err : Str) (rc : Int) :
    preErrors (afterWait cfg s out err rc) = [] := by
  unfold afterWait
  rw [preErrors_append, preErrors_append, preErrors_append,
    preErrors_postHookEvents]
  split_ifs <;> simp [preErrors]

/-- The post-hook error reports of the post-wait phase are exactly the
    post-command hook failures. -/
lemma postErrors_afterWait (cfg : ReplizeConfig) (s out err : Str) (rc : Int) :
    postErrors (afterWait cfg s out err rc) =
      cfg.postCommandHooks.filterMap (fun h => h cfg.command s rc out err) := by
  unfold afterWait
  rw [postErrors_append, postErrors_append, postErrors_append,
    postErrors_postHookEvents]
  split_ifs <;> simp [postErrors]

/-- A spawn event contributes no announcement. -/
lemma announces_cons_spawn (a : List Str) (t : List Event) :
    announces (Event.spawn a :: t) = announces t := by
  simp [announces, List.filterMap_cons]

/-- A spawn event contributes its argv to the spawn list. -/
lemma spawnArgvs_cons_spawn (a : List Str) (t : List Event) :
    spawnArgvs (Event.spawn a :: t) = a :: spawnArgvs t := by
  simp [spawnArgvs, List.filterMap_cons]

/-- A spawn event contributes no pre-hook error. -/
lemma preErrors_cons_spawn (a : List Str) (t : List Event) :
    preErrors (Event.spawn a :: t) = preErrors t := by
  simp [preErrors, List.filterMap_cons]

/-- A spawn event contributes no post-hook error. -/
lemma postErrors_cons_spawn (a : List Str) (t : List Event) :
    postErrors (Event.spawn a :: t) = postErrors t := by
  simp [postErrors, List.filterMap_cons]

/-- The execution phase announces no re-run. -/
lemma announces_runExecution (cfg : ReplizeConfig) (oracle : SpawnOracle) (s : Str) :
    announces (runExecution cfg oracle s) = [] := by
  unfold runExecution
  cases h1 : shlexSplit (cfg.command ++ ' ' :: s) with
  | error msg => simp [announces]
  | ok argv =>
    cases h2 : oracle argv with
    | fileNotFound => simp [h2, announces]
    | raiseOther m => simp [h2, announces]
    | ok rt out err rc p q =>
      simp only [h2]
      by_cases h3 : timesOut cfg.timeout rt
      · simp [h3, caughtByTimeoutError, caughtByFileNotFound, announces]
      · simp only [h3, Bool.false_eq_true, if_false]
        rw [announces_cons_spawn, announces_afterWait]

/-- The execution phase reports no pre-hook error. -/
lemma preErrors_runExecution (cfg : ReplizeConfig) (oracle : SpawnOracle) (s : Str) :
    preErrors (runExecution cfg oracle s) = [] := by
  unfold runExecution
  cases h1 : shlexSplit (cfg.command ++ ' ' :: s) with
  | error msg => simp [preErrors]
  | ok argv =>
    cases h2 : oracle argv with
    | fileNotFound => simp [h2, preErrors]
    | raiseOther m => simp [h2, preErrors]
    | ok rt out err rc p q =>
      simp only [h2]
      by_cases h3 : timesOut cfg.timeout rt
      · simp [h3, caughtByTimeoutError, caughtByFileNotFound, preErrors]
      · simp only [h3, Bool.false_eq_true, if_false]
        rw [preErrors_cons_spawn, preErrors_afterWait]

/-- The execution phase spawns at most one process. -/
lemma spawnArgvs_runExecution_length (cfg : ReplizeConfig) (oracle : SpawnOracle) (s : Str) :
    (spawnArgvs (runExecution cfg oracle s)).length ≤ 1 := by
  unfold runExecution
  cases h1 : shlexSplit (cfg.command ++ ' ' :: s) with
  | error msg => simp [spawnArgvs]
  | ok argv =>
    cases h2 : oracle argv with
    | fileNotFound => simp [h2, spawnArgvs]
    | raiseOther m => simp [h2, spawnArgvs]
    | ok rt out err rc p q =>
      simp only [h2]
      by_cases h3 : timesOut cfg.timeout rt
      · simp [h3, caughtByTimeoutError, caughtByFileNotFound, spawnArgvs]
      · simp only [h3, Bool.false_eq_true, if_false]
        rw [spawnArgvs_cons_spawn, spawnArgvs_afterWait]
        simp

/-- A spawn event is in a trace exactly when its argv is among the
    extracted spawn argument vectors. -/
lemma spawn_mem_iff {a : List Str} {evs : List Event} :
    Event.spawn a ∈ evs ↔ a ∈ spawnArgvs evs := by
  unfold spawnArgvs
  rw [List.mem_filterMap]
  constructor
  · intro h
    exact ⟨Event.spawn a, h, rfl⟩
  · rintro ⟨e, he, hfe⟩
    cases e <;> simp_all

/-- A re-run announcement is in a trace exactly when its entry is among
    the extracted announcements. -/
lemma announce_mem_iff {a : Str} {evs : List Event} :
    Event.rerunAnnounce a ∈ evs ↔ a ∈ announces evs := by
  unfold announces
  rw [List.mem_filterMap]
  constructor
  · intro h
    exact ⟨Event.rerunAnnounce a, h, rfl⟩
  · rintro ⟨e, he, hfe⟩
    cases e <;> simp_all

/-- The possible event payloads of a handled builtin line. -/
lemma handleBuiltin_some_shape {history : List Str} {s : Str} {evs : List Event}
    (h : handleBuiltin history s = some evs) :
    evs = [Event.printedHelp] ∨ evs = [Event.printedHistory] ∨
      evs = [Event.clearedScreen] ∨ ∃ t, evs = [Event.reportInvalidHistoryRef t] := by
  unfold handleBuiltin at h
  split at h
  · simp at h
  · split_ifs at h with h1 h2 h3
    · exact Or.inl (by simp_all)
    · exact Or.inr (Or.inl (by simp_all))
    · exact Or.inr (Or.inr (Or.inl (by simp_all)))
    · rename_i cmd tail heq
      rcases cmd with _ | ⟨c, rest⟩
      · simp at h
      · simp only [] at h
        split_ifs at h with h4 h5
        rcases hpi : pyInt rest with _ | n <;> rw [hpi] at h
        · exact Or.inr (Or.inr (Or.inr ⟨c :: rest, by simp_all⟩))
        · simp at h

/-- A halted history rewrite only ever reports an out-of-range index. -/
lemma histRewrite_halt_shape {history : List Str} {s : Str} {evs : List Event}
    (h : histRewrite history s = .halt evs) :
    ∃ i, evs = [Event.reportOutOfRange i] := by
  unfold histRewrite at h
  split at h
  · simp at h
  · rename_i c rest
    split_ifs at h with h1 h2
    split at h
    · split_ifs at h with h3
      cases h
      exact ⟨_, rfl⟩
    · simp at h

/-- A proceeding history rewrite either leaves the line untouched with no
    events or announces the re-run of the substituted entry. -/
lemma histRewrite_proceed_shape {history : List Str} {s s2 : Str} {evs : List Event}
    (h : histRewrite history s = .proceed s2 evs) :
    evs = [] ∨ evs = [Event.rerunAnnounce s2] := by
  unfold histRewrite at h
  split at h
  · cases h
    exact Or.inl rfl
  · rename_i c rest
    split_ifs at h with h1 h2
    · cases h
      exact Or.inl rfl
    · split at h
      · split_ifs at h with h3
        cases h
        exact Or.inr rfl
      · cases h
        exact Or.inl rfl
    · cases h
      exact Or.inl rfl

/-- C9: a line consisting only of whitespace is discarded by the loop: no
    subprocess is spawned, nothing is appended to the session history, the
    command counter is unchanged, and the loop awaits the next input. -/
theorem C9_whitespace_noop (cfg : ReplizeConfig) (oracle : SpawnOracle) (st : SessState)
    (raw : Str) (h : ∀ c ∈ raw, isPyWS c = true) :
    replStep cfg oracle st (.line raw) = ⟨false, st, []⟩ := by
  have hs : pyStrip raw = [] := pyStrip_all_ws h
  simp [replStep, replLine, hs]

/-- Witness for C9 at the concrete all-whitespace input. -/
theorem C9_whitespace_noop_witness :
    replStep cfgEcho oracleEcho ⟨0, []⟩ (.line (" \t ".toList)) = ⟨false, ⟨0, []⟩, []⟩ :=
  C9_whitespace_noop cfgEcho oracleEcho ⟨0, []⟩ (" \t ".toList) (by decide)

/-- C3: one loop iteration exits exactly on an exit signal from the line
    reader or a first token in the configured exit-word set, and the
    session wrapper fails exactly when log opening fails at startup; every
    other condition, including all per-line errors, continues the loop. -/
theorem C3_exit_conditions (cfg : ReplizeConfig) (oracle : SpawnOracle) (st : SessState)
    (ev : InputEvent) :
    ((replStep cfg oracle st ev).exitLoop = true ↔
      ev = InputEvent.exitSignal ∨
        ∃ raw, ev = InputEvent.line raw ∧ pyStrip raw ≠ [] ∧
          (pySplit (pyStrip raw)).headD [] ∈ cfg.exitCommands) ∧
    (∀ (logOpenFails : Bool) (inputs : List InputEvent),
      (∃ msg, replizeSession cfg oracle logOpenFails inputs = .error msg) ↔
        (cfg.logEnabled = true ∧ logOpenFails = true)) := by
  constructor
  · cases ev with
    | exitSignal => simp [replStep]
    | line raw =>
      simp only [replStep]
      by_cases h0 : pyStrip raw = []
      · simp [replLine, h0]
      · by_cases h1 : (pySplit (pyStrip raw)).headD [] ∈ cfg.exitCommands
        · have hstep : replLine cfg oracle st (pyStrip raw) =
              ⟨true, st, logEvents cfg (pyStrip raw)⟩ := by
            unfold replLine
            rw [if_neg h0, if_pos h1]
          rw [hstep]
          constructor
          · intro _
            exact Or.inr ⟨raw, rfl, h0, h1⟩
          · intro _
            rfl
        · unfold replLine
          rw [if_neg h0, if_neg h1]
          have hrhs : ¬(InputEvent.line raw = InputEvent.exitSignal ∨
              ∃ raw2, InputEvent.line raw = InputEvent.line raw2 ∧ pyStrip raw2 ≠ [] ∧
                (pySplit (pyStrip raw2)).headD [] ∈ cfg.exitCommands) := by
            rintro (hsig | ⟨raw2, hraw, hne, hmem⟩)
            · exact absurd hsig (by simp)
            · cases hraw
              exact absurd hmem h1
          cases hb : handleBuiltin st.history (pyStrip raw) with
          | some evs =>
            constructor
            · intro hfalse
              simp at hfalse
            · intro hx
              exact absurd hx hrhs
          | none =>
            cases hr : histRewrite st.history (pyStrip raw) with
            | halt evs =>
              constructor
              · intro hfalse
                simp at hfalse
              · intro hx
                exact absurd hx hrhs
            | proceed s2 evs =>
              constructor
              · intro hfalse
                simp [execPhase] at hfalse
              · intro hx
                exact absurd hx hrhs
  · intro fails inputs
    constructor
    · rintro ⟨msg, hm⟩
      unfold replizeSession at hm
      split_ifs at hm with hc
      exact hc
    · rintro ⟨hl, hf⟩
      refine ⟨"log open failed", ?_⟩
      unfold replizeSession
      rw [if_pos ⟨hl, hf⟩]

/-- Witness for C3: the exit word ends the loop in the concrete session. -/
theorem C3_exit_conditions_witness :
    (replStep cfgEcho oracleEcho ⟨0, []⟩ (.line ("exit".toList))).exitLoop = true :=
  (C3_exit_conditions cfgEcho oracleEcho ⟨0, []⟩ (.line ("exit".toList))).1.mpr
    (Or.inr ⟨"exit".toList, rfl, by decide, by decide⟩)

/-- C5: the command counter increments exactly once for each command that
    reaches the execution stage, regardless of the execution outcome
    (including CommandNotFound and ExecutionError); at most one process is
    spawned per iteration; and empty lines, exit words, handled builtins
    (help, ?, history, clear, invalid references) and out-of-range history
    references never increment the counter. -/
theorem C5_counter (cfg : ReplizeConfig) (oracle : SpawnOracle) (st : SessState)
    (ev : InputEvent) :
    (spawnArgvs (replStep cfg oracle st ev).events ≠ [] →
      (replStep cfg oracle st ev).st.counter = st.counter + 1) ∧
    (spawnArgvs (replStep cfg oracle st ev).events).length ≤ 1 ∧
    (∀ raw s2 evs, ev = .line raw → pyStrip raw ≠ [] →
      (pySplit (pyStrip raw)).headD [] ∉ cfg.exitCommands →
      handleBuiltin st.history (pyStrip raw) = none →
      histRewrite st.history (pyStrip raw) = .proceed s2 evs →
      (replStep cfg oracle st ev).st.counter = st.counter + 1) ∧
    (∀ raw, ev = .line raw →
      (pyStrip raw = [] ∨ (pySplit (pyStrip raw)).headD [] ∈ cfg.exitCommands ∨
        handleBuiltin st.history (pyStrip raw) ≠ none ∨
        (∃ evs, histRewrite st.history (pyStrip raw) = .halt evs)) →
      (replStep cfg oracle st ev).st.counter = st.counter) ∧
    (ev = .exitSignal → (replStep cfg oracle st ev).st.counter = st.counter) := by
  cases ev with
  | exitSignal =>
    refine ⟨?_, ?_, ?_, ?_, ?_⟩
    · intro hne
      simp [replStep, spawnArgvs] at hne
    · simp [replStep, spawnArgvs]
    · intro raw s2 evs heq
      simp at heq
    · intro raw heq
      simp at heq
    · intro _
      rfl
  | line raw =>
    by_cases h0 : pyStrip raw = []
    · have hstep : replStep cfg oracle st (.line raw) = ⟨false, st, []⟩ := by
        simp [replStep, replLine, h0]
      rw [hstep]
      refine ⟨?_, ?_, ?_, ?_, ?_⟩
      · intro hne
        simp [spawnArgvs] at hne
      · simp [spawnArgvs]
      · intro raw2 s2 evs heq hne hex hb hr
        cases heq
        exact absurd h0 hne
      · intro raw2 heq hd
        rfl
      · intro heq
        simp at heq
    · by_cases h1 : (pySplit (pyStrip raw)).headD [] ∈ cfg.exitCommands
      · have hstep : replStep cfg oracle st (.line raw) =
            ⟨true, st, logEvents cfg (pyStrip raw)⟩ := by
          simp only [replStep]
          unfold replLine
          rw [if_neg h0, if_pos h1]
        rw [hstep]
        refine ⟨?_, ?_, ?_, ?_, ?_⟩
        · intro hne
          rw [spawnArgvs_logEvents] at hne
          exact absurd rfl hne
        · rw [spawnArgvs_logEvents]
          simp
        · intro raw2 s2 evs heq hne hex hb hr
          cases heq
          exact absurd h1 hex
        · intro raw2 heq hd
          rfl
        · intro heq
          simp at heq
      · cases hb : handleBuiltin st.history (pyStrip raw) with
        | some evs =>
          have hstep : replStep cfg oracle st (.line raw) =
              ⟨false, st, logEvents cfg (pyStrip raw) ++ evs⟩ := by
            simp only [replStep]
            unfold replLine
            rw [if_neg h0, if_neg h1, hb]
          have hsp : spawnArgvs (logEvents cfg (pyStrip raw) ++ evs) = [] := by
            rcases handleBuiltin_some_shape hb with rfl | rfl | rfl | ⟨t, rfl⟩ <;>
              rw [spawnArgvs_append, spawnArgvs_logEvents] <;> simp [spawnArgvs]
          rw [hstep]
          refine ⟨?_, ?_, ?_, ?_, ?_⟩
          · intro hne
            rw [hsp] at hne
            exact absurd rfl hne
          · rw [hsp]
            simp
          · intro raw2 s2 evs2 heq hne hex hb2 hr
            cases heq
            have := hb.symm.trans hb2
            simp at this
          · intro raw2 heq hd
            rfl
          · intro heq
            simp at heq
        | none =>
          cases hr : histRewrite st.history (pyStrip raw) with
          | halt evs =>
            have hstep : replStep cfg oracle st (.line raw) =
                ⟨false, st, logEvents cfg (pyStrip raw) ++ evs⟩ := by
              simp only [replStep]
              unfold replLine
              rw [if_neg h0, if_neg h1, hb, hr]
            have hsp : spawnArgvs (logEvents cfg (pyStrip raw) ++ evs) = [] := by
              rcases histRewrite_halt_shape hr with ⟨i, rfl⟩
              rw [spawnArgvs_append, spawnArgvs_logEvents]
              simp [spawnArgvs]
            rw [hstep]
            refine ⟨?_, ?_, ?_, ?_, ?_⟩
            · intro hne
              rw [hsp] at hne
              exact absurd rfl hne
            · rw [hsp]
              simp
            · intro raw2 s2 evs2 heq hne hex hb2 hr2
              cases heq
              have := hr.symm.trans hr2
              simp at this
            · intro raw2 heq hd
              rfl
            · intro heq
              simp at heq
          | proceed s2 evs =>
            have hstep : replStep cfg oracle st (.line raw) =
                execPhase cfg oracle st s2 (logEvents cfg (pyStrip raw) ++ evs) := by
              simp only [replStep]
              unfold replLine
              rw [if_neg h0, if_neg h1, hb, hr]
            have hsp : spawnArgvs (logEvents cfg (pyStrip raw) ++ evs) = [] := by
              rcases histRewrite_proceed_shape hr with rfl | rfl <;>
                rw [spawnArgvs_append, spawnArgvs_logEvents] <;> simp [spawnArgvs]
            rw [hstep]
            refine ⟨?_, ?_, ?_, ?_, ?_⟩
            · intro _
              simp [execPhase]
            · show (spawnArgvs (logEvents cfg (pyStrip raw) ++ evs ++
                preHookEvents cfg s2 ++ runExecution cfg oracle s2)).length ≤ 1
              rw [spawnArgvs_append, spawnArgvs_append, hsp, spawnArgvs_preHookEvents]
              simpa using spawnArgvs_runExecution_length cfg oracle s2
            · intro raw2 s3 evs2 heq hne hex hb2 hr2
              simp [execPhase]
            · intro raw2 heq hd
              cases heq
              rcases hd with hd | hd | hd | ⟨evs2, hd⟩
              · exact absurd hd h0
              · exact absurd hd h1
              · exact absurd hb hd
              · have := hr.symm.trans hd
                simp at this
            · intro heq
              simp at heq

/-- Witness for C5: a dispatched command whose spawn fails with
    CommandNotFound still increments the counter. -/
theorem C5_counter_witness :
    (replStep cfgEcho oracleFnf ⟨0, []⟩ (.line ("arg1".toList))).st.counter = 0 + 1 :=
  (C5_counter cfgEcho oracleFnf ⟨0, []⟩ (.line ("arg1".toList))).2.2.1
    ("arg1".toList) ("arg1".toList) [] rfl (by decide) (by decide) (by decide) (by decide)

/-- C4: for a whole-line history reference, the loop never exits and never
    throws; a parsed in-range index resolves to exactly the stored entry
    at that position, which is announced and appended to the history; a
    parsed out-of-range (or negative) index is reported with no spawn and
    no state change; an unparsable reference is reported as invalid with
    no spawn and no state change. -/
theorem C4_history_reference (cfg : ReplizeConfig) (oracle : SpawnOracle) (st : SessState)
    (raw t : Str) (hs : pyStrip raw = '!' :: t) (ht : t ≠ [])
    (hnw : ∀ c ∈ t, isPyWS c = false)
    (hex : ('!' :: t) ∉ cfg.exitCommands) :
    (replStep cfg oracle st (.line raw)).exitLoop = false ∧
    (∀ n : Int, pyInt t = some n → 0 ≤ n ∧ n < (st.history.length : Int) →
      (replStep cfg oracle st (.line raw)).st.history
          = st.history ++ [st.history.getD n.toNat []] ∧
      Event.rerunAnnounce (st.history.getD n.toNat []) ∈
        (replStep cfg oracle st (.line raw)).events) ∧
    (∀ n : Int, pyInt t = some n → ¬(0 ≤ n ∧ n < (st.history.length : Int)) →
      (replStep cfg oracle st (.line raw)).st = st ∧
      Event.reportOutOfRange n ∈ (replStep cfg oracle st (.line raw)).events ∧
      ∀ argv, Event.spawn argv ∉ (replStep cfg oracle st (.line raw)).events) ∧
    (pyInt t = none →
      (replStep cfg oracle st (.line raw)).st = st ∧
      Event.reportInvalidHistoryRef ('!' :: t) ∈ (replStep cfg oracle st (.line raw)).events ∧
      ∀ argv, Event.spawn argv ∉ (replStep cfg oracle st (.line raw)).events) := by
  have hne : pyStrip raw ≠ [] := by
    rw [hs]
    simp
  have hsplit : pySplit ('!' :: t) = ['!' :: t] := by
    apply pySplit_no_ws (by simp)
    intro c hc
    rcases List.mem_cons.mp hc with rfl | hc
    · decide
    · exact hnw c hc
  have hx : ¬((pySplit (pyStrip raw)).headD [] ∈ cfg.exitCommands) := by
    rw [hs, hsplit]
    exact hex
  have hn1 : ¬(('!' :: t) = ['h', 'e', 'l', 'p'] ∨ ('!' :: t) = ['?']) := by
    rintro (hcon | hcon) <;> (injection hcon with hc _; exact absurd hc (by decide))
  have hn2 : ('!' :: t) ≠ ['h', 'i', 's', 't', 'o', 'r', 'y'] := by
    intro hcon
    injection hcon with hc _
    exact absurd hc (by decide)
  have hn3 : ('!' :: t) ≠ ['c', 'l', 'e', 'a', 'r'] := by
    intro hcon
    injection hcon with hc _
    exact absurd hc (by decide)
  have hbnum : ∀ n : Int, pyInt t = some n →
      handleBuiltin st.history (pyStrip raw) = none := by
    intro n hpi
    rw [hs]
    unfold handleBuiltin
    rw [hsplit]
    simp [hn1, hn2, hn3, ht, hpi]
  have hbnone : pyInt t = none →
      handleBuiltin st.history (pyStrip raw) =
        some [Event.reportInvalidHistoryRef ('!' :: t)] := by
    intro hpi
    rw [hs]
    unfold handleBuiltin
    rw [hsplit]
    simp [hn1, hn2, hn3, ht, hpi]
  have hrin : ∀ n : Int, pyInt t = some n → (0 ≤ n ∧ n < (st.history.length : Int)) →
      histRewrite st.history (pyStrip raw) =
        .proceed (st.history.getD n.toNat [])
          [Event.rerunAnnounce (st.history.getD n.toNat [])] := by
    intro n hpi hcond
    rw [hs]
    unfold histRewrite
    simp [ht, hpi, hcond]
  have hrout : ∀ n : Int, pyInt t = some n → ¬(0 ≤ n ∧ n < (st.history.length : Int)) →
      histRewrite st.history (pyStrip raw) = .halt [Event.reportOutOfRange n] := by
    intro n hpi hcond
    rw [hs]
    unfold histRewrite
    simp [ht, hpi, hcond]
  have hrnone : pyInt t = none →
      histRewrite st.history (pyStrip raw) = .proceed ('!' :: t) [] := by
    intro hpi
    rw [hs]
    unfold histRewrite
    simp [ht, hpi]
  refine ⟨?_, ?_, ?_, ?_⟩
  · rcases hpi : pyInt t with _ | n
    · have hstep : replStep cfg oracle st (.line raw) =
          ⟨false, st, logEvents cfg (pyStrip raw) ++ [Event.reportInvalidHistoryRef ('!' :: t)]⟩ := by
        simp only [replStep]
        unfold replLine
        rw [if_neg hne, if_neg hx, hbnone hpi]
      rw [hstep]
    · by_cases hcond : 0 ≤ n ∧ n < (st.history.length : Int)
      · have hstep : replStep cfg oracle st (.line raw) =
            execPhase cfg oracle st (st.history.getD n.toNat [])
              (logEvents cfg (pyStrip raw) ++
                [Event.rerunAnnounce (st.history.getD n.toNat [])]) := by
          simp only [replStep]
          unfold replLine
          rw [if_neg hne, if_neg hx, hbnum n hpi, hrin n hpi hcond]
        rw [hstep]
        rfl
      · have hstep : replStep cfg oracle st (.line raw) =
            ⟨false, st, logEvents cfg (pyStrip raw) ++ [Event.reportOutOfRange n]⟩ := by
          simp only [replStep]
          unfold replLine
          rw [if_neg hne, if_neg hx, hbnum n hpi, hrout n hpi hcond]
        rw [hstep]
  · intro n hpi hcond
    have hstep : replStep cfg oracle st (.line raw) =
        execPhase cfg oracle st (st.history.getD n.toNat [])
          (logEvents cfg (pyStrip raw) ++
            [Event.rerunAnnounce (st.history.getD n.toNat [])]) := by
      simp only [replStep]
      unfold replLine
      rw [if_neg hne, if_neg hx, hbnum n hpi, hrin n hpi hcond]
    rw [hstep]
    constructor
    · simp [execPhase]
    · simp [execPhase]
  · intro n hpi hcond
    have hstep : replStep cfg oracle st (.line raw) =
        ⟨false, st, logEvents cfg (pyStrip raw) ++ [Event.reportOutOfRange n]⟩ := by
      simp only [replStep]
      unfold replLine
      rw [if_neg hne, if_neg hx, hbnum n hpi, hrout n hpi hcond]
    rw [hstep]
    refine ⟨rfl, ?_, ?_⟩
    · simp
    · intro argv hmem
      rw [spawn_mem_iff, spawnArgvs_append, spawnArgvs_logEvents] at hmem
      simp [spawnArgvs] at hmem
  · intro hpi
    have hstep : replStep cfg oracle st (.line raw) =
        ⟨false, st, logEvents cfg (pyStrip raw) ++
          [Event.reportInvalidHistoryRef ('!' :: t)]⟩ := by
      simp only [replStep]
      unfold replLine
      rw [if_neg hne, if_neg hx, hbnone hpi]
    rw [hstep]
    refine ⟨rfl, ?_, ?_⟩
    · simp
    · intro argv hmem
      rw [spawn_mem_iff, spawnArgvs_append, spawnArgvs_logEvents] at hmem
      simp [spawnArgvs] at hmem

/-- Witness for C4: in the concrete session with one stored entry, the
    reference !0 resolves to that entry and !5 is reported out of range
    with no spawn. -/
theorem C4_history_reference_witness :
    (replStep cfgLs oracleLs ⟨0, ["-l".toList]⟩ (.line ("!0".toList))).st.history
        = ["-l".toList, "-l".toList] ∧
    Event.reportOutOfRange 5 ∈
      (replStep cfgLs oracleLs ⟨0, ["-l".toList]⟩ (.line ("!5".toList))).events := by
  constructor
  · have h := (C4_history_reference cfgLs oracleLs ⟨0, ["-l".toList]⟩
      ("!0".toList) ("0".toList) (by decide) (by decide) (by decide) (by decide)).2.1
      0 (by decide) (by decide)
    rw [h.1]
    decide
  · exact ((C4_history_reference cfgLs oracleLs ⟨0, ["-l".toList]⟩
      ("!5".toList) ("5".toList) (by decide) (by decide) (by decide) (by decide)).2.2.1
      5 (by decide) (by decide)).2.1

/-- C7: when tokenizing the full command line fails (as on an unterminated
    quote), the iteration catches the error inside the execution phase,
    reports it as a per-line error, spawns no process, and the loop
    continues. -/
theorem C7_tokenize_error (cfg : ReplizeConfig) (oracle : SpawnOracle) (st : SessState)
    (raw s : Str) (msg : String)
    (hstrip : pyStrip raw = s) (hne : s ≠ [])
    (hex : (pySplit s).headD [] ∉ cfg.exitCommands)
    (hb : handleBuiltin st.history s = none)
    (hr : histRewrite st.history s = .proceed s [])
    (htok : shlexSplit (cfg.command ++ ' ' :: s) = .error msg) :
    (replStep cfg oracle st (.line raw)).exitLoop = false ∧
    Event.reportExecError msg ∈ (replStep cfg oracle st (.line raw)).events ∧
    ∀ argv, Event.spawn argv ∉ (replStep cfg oracle st (.line raw)).events := by
  have hstep : replStep cfg oracle st (.line raw) =
      execPhase cfg oracle st s (logEvents cfg s ++ []) := by
    simp only [replStep]
    rw [hstrip]
    unfold replLine
    rw [if_neg hne, if_neg hex, hb, hr]
  have hexec : runExecution cfg oracle s = [Event.reportExecError msg] := by
    unfold runExecution
    rw [htok]
  rw [hstep]
  refine ⟨rfl, ?_, ?_⟩
  · simp [execPhase, hexec]
  · intro argv hmem
    simp only [execPhase] at hmem
    rw [spawn_mem_iff, spawnArgvs_append, spawnArgvs_append, spawnArgvs_append,
      spawnArgvs_logEvents, spawnArgvs_preHookEvents, hexec] at hmem
    simp [spawnArgvs] at hmem

/-- Witness for C7: the unterminated quote is reported and the loop goes
    on. -/
theorem C7_tokenize_error_witness :
    Event.reportExecError ("No closing quotation") ∈
      (replStep cfgEcho oracleEcho ⟨0, []⟩ (.line ("\"abc".toList))).events :=
  (C7_tokenize_error cfgEcho oracleEcho ⟨0, []⟩ ("\"abc".toList) ("\"abc".toList)
    ("No closing quotation") (by decide) (by decide) (by decide) (by decide)
    (by decide) rfl).2.1

/-- C8: the argument vector handed to a spawned process is exactly the
    tokenized base command followed by the tokenized user arguments. -/
theorem C8_argv (cfg : ReplizeConfig) (oracle : SpawnOracle) (s : Str)
    (cts ats : List Str)
    (hc : shlexSplit cfg.command = .ok cts)
    (ha : shlexSplit s = .ok ats) :
    (∀ argv, Event.spawn argv ∈ runExecution cfg oracle s → argv = cts ++ ats) ∧
    (∀ rt out err rc p q, oracle (cts ++ ats) = .ok rt out err rc p q →
      Event.spawn (cts ++ ats) ∈ runExecution cfg oracle s) := by
  have hfull : shlexSplit (cfg.command ++ ' ' :: s) = .ok (cts ++ ats) := by
    rw [shlexSplit_append s hc, ha]
    rfl
  constructor
  · intro argv hmem
    unfold runExecution at hmem
    rw [hfull] at hmem
    simp only [] at hmem
    cases h2 : oracle (cts ++ ats) with
    | fileNotFound =>
      rw [h2] at hmem
      simp at hmem
    | raiseOther m =>
      rw [h2] at hmem
      simp at hmem
    | ok rt out err rc p q =>
      rw [h2] at hmem
      rcases List.mem_cons.mp hmem with heq | hmem2
      · injection heq with h3
      · by_cases h3 : timesOut cfg.timeout rt
        · simp [h3, caughtByTimeoutError, caughtByFileNotFound] at hmem2
        · simp only [h3, Bool.false_eq_true, if_false] at hmem2
          rw [spawn_mem_iff, spawnArgvs_afterWait] at hmem2
          simp at hmem2
  · intro rt out err rc p q h2
    unfold runExecution
    rw [hfull]
    simp [h2]

/-- Witness for C8: base command echo with input arg1 yields exactly the
    argument vector echo arg1. -/
theorem C8_argv_witness :
    Event.spawn ["echo".toList, "arg1".toList] ∈
      runExecution cfgEcho oracleEcho ("arg1".toList) :=
  (C8_argv cfgEcho oracleEcho ("arg1".toList) ["echo".toList] ["arg1".toList]
    rfl rfl).2 0 ("arg1\n".toList) [] 0 [] [] rfl

/-- C6: hook failures are isolated: on a dispatched line whose execution
    completes, every registered pre-command and post-command hook is
    attempted in registration order, each failure is reported
    individually, and a failing hook aborts neither the remaining hooks
    nor the command nor the loop. -/
theorem C6_hooks (cfg : ReplizeConfig) (oracle : SpawnOracle) (st : SessState)
    (raw s : Str) (cts : List Str)
    (hs1 hs2 : List PreHook) (hpre : PreHook) (msg1 : String)
    (ks1 ks2 : List PostHook) (kpost : PostHook) (msg2 : String)
    (rt : Nat) (out err : Str) (rc : Int) (p q : Str)
    (hstrip : pyStrip raw = s) (hne : s ≠ [])
    (hex : (pySplit s).headD [] ∉ cfg.exitCommands)
    (hb : handleBuiltin st.history s = none)
    (hr : histRewrite st.history s = .proceed s [])
    (hhooks : cfg.preCommandHooks = hs1 ++ hpre :: hs2)
    (hfail : hpre cfg.command s = some msg1)
    (hkooks : cfg.postCommandHooks = ks1 ++ kpost :: ks2)
    (hkfail : kpost cfg.command s rc out err = some msg2)
    (htok : shlexSplit (cfg.command ++ ' ' :: s) = .ok cts)
    (horacle : oracle cts = .ok rt out err rc p q)
    (hto : timesOut cfg.timeout rt = false) :
    (replStep cfg oracle st (.line raw)).exitLoop = false ∧
    Event.spawn cts ∈ (replStep cfg oracle st (.line raw)).events ∧
    preErrors (replStep cfg oracle st (.line raw)).events =
      (hs1.filterMap (fun h => h cfg.command s)) ++ msg1 ::
        (hs2.filterMap (fun h => h cfg.command s)) ∧
    postErrors (replStep cfg oracle st (.line raw)).events =
      (ks1.filterMap (fun k => k cfg.command s rc out err)) ++ msg2 ::
        (ks2.filterMap (fun k => k cfg.command s rc out err)) := by
  have hstep : replStep cfg oracle st (.line raw) =
      execPhase cfg oracle st s (logEvents cfg s ++ []) := by
    simp only [replStep]
    rw [hstrip]
    unfold replLine
    rw [if_neg hne, if_neg hex, hb, hr]
  have hexec : runExecution cfg oracle s = Event.spawn cts :: afterWait cfg s out err rc := by
    unfold runExecution
    rw [htok]
    simp only []
    rw [horacle]
    simp [hto]
  rw [hstep]
  refine ⟨rfl, ?_, ?_, ?_⟩
  · simp [execPhase, hexec]
  · simp only [execPhase]
    rw [preErrors_append, preErrors_append, preErrors_append, preErrors_logEvents,
      preErrors_preHookEvents, hexec, preErrors_cons_spawn, preErrors_afterWait, hhooks]
    simp [List.filterMap_append, List.filterMap_cons, hfail, preErrors]
  · simp only [execPhase]
    rw [postErrors_append, postErrors_append, postErrors_append, postErrors_logEvents,
      postErrors_preHookEvents, hexec, postErrors_cons_spawn, postErrors_afterWait, hkooks]
    simp [List.filterMap_append, List.filterMap_cons, hkfail, postErrors]

/-- Witness for C6: with a failing hook between succeeding ones on each
    list, exactly the failing hooks are reported and the spawn happens. -/
theorem C6_hooks_witness :
    preErrors (replStep cfgHooks oracleEcho ⟨0, []⟩ (.line ("arg1".toList))).events
        = ["pre boom"] ∧
    postErrors (replStep cfgHooks oracleEcho ⟨0, []⟩ (.line ("arg1".toList))).events
        = ["post boom"] ∧
    Event.spawn ["echo".toList, "arg1".toList] ∈
      (replStep cfgHooks oracleEcho ⟨0, []⟩ (.line ("arg1".toList))).events := by
  have h := C6_hooks cfgHooks oracleEcho ⟨0, []⟩ ("arg1".toList) ("arg1".toList)
    ["echo".toList, "arg1".toList] [preHookOk] [preHookOk] preHookBoom ("pre boom")
    [] [postHookOk] postHookBoom ("post boom") 0 ("arg1\n".toList) [] 0 [] []
    (by decide) (by decide) (by decide) (by decide) (by decide) rfl rfl rfl rfl
    rfl rfl rfl
  refine ⟨?_, ?_, h.2.1⟩
  · rw [h.2.2.1]
    rfl
  · rw [h.2.2.2]
    rfl

/-- C10: a line that begins with ! followed by digits but carries further
    text after whitespace is never resolved as a history reference, even
    when the digits form a valid history index: it is appended verbatim to
    the session history, no re-run is announced, and the literal line is
    what the execution phase receives as user arguments. -/
theorem C10_trailing_text_literal (cfg : ReplizeConfig) (oracle : SpawnOracle)
    (st : SessState) (raw d r0 : Str) (c : Char) (n : Int)
    (hstrip : pyStrip raw = '!' :: (d ++ ' ' :: (r0 ++ [c])))
    (hd : d ≠ []) (hdig : ∀ x ∈ d, isAsciiDigit x = true)
    (hn : pyInt d = some n)
    (hc : isPyWS c = false)
    (hex : ('!' :: d) ∉ cfg.exitCommands) :
    (replStep cfg oracle st (.line raw)).exitLoop = false ∧
    (replStep cfg oracle st (.line raw)).st.history
        = st.history ++ ['!' :: (d ++ ' ' :: (r0 ++ [c]))] ∧
    (replStep cfg oracle st (.line raw)).st.counter = st.counter + 1 ∧
    (∀ e, Event.rerunAnnounce e ∉ (replStep cfg oracle st (.line raw)).events) ∧
    (replStep cfg oracle st (.line raw)).events =
      logEvents cfg ('!' :: (d ++ ' ' :: (r0 ++ [c]))) ++
        preHookEvents cfg ('!' :: (d ++ ' ' :: (r0 ++ [c]))) ++
        runExecution cfg oracle ('!' :: (d ++ ' ' :: (r0 ++ [c]))) := by
  have hpi : pyInt (d ++ ' ' :: (r0 ++ [c])) = none :=
    pyInt_digits_ws_none r0 hd hdig hc
  have hne : pyStrip raw ≠ [] := by
    rw [hstrip]
    simp
  have htokne : ('!' :: d) ≠ [] := by simp
  have htoknws : ∀ x ∈ '!' :: d, isPyWS x = false := by
    intro x hx
    rcases List.mem_cons.mp hx with rfl | hx
    · decide
    · exact digit_not_ws (hdig x hx)
  have hshape : '!' :: (d ++ ' ' :: (r0 ++ [c])) = ('!' :: d) ++ ' ' :: (r0 ++ [c]) := by
    simp
  have hsplit : pySplit ('!' :: (d ++ ' ' :: (r0 ++ [c])))
      = ('!' :: d) :: pySplit (r0 ++ [c]) := by
    rw [hshape]
    exact pySplit_token_head (by decide) (r0 ++ [c]) htokne htoknws
  have hx : ¬((pySplit (pyStrip raw)).headD [] ∈ cfg.exitCommands) := by
    rw [hstrip, hsplit]
    exact hex
  have hn1 : ¬(('!' :: d) = ['h', 'e', 'l', 'p'] ∨ ('!' :: d) = ['?']) := by
    rintro (hcon | hcon) <;> (injection hcon with hc2 _; exact absurd hc2 (by decide))
  have hn2 : ('!' :: d) ≠ ['h', 'i', 's', 't', 'o', 'r', 'y'] := by
    intro hcon
    injection hcon with hc2 _
    exact absurd hc2 (by decide)
  have hn3 : ('!' :: d) ≠ ['c', 'l', 'e', 'a', 'r'] := by
    intro hcon
    injection hcon with hc2 _
    exact absurd hc2 (by decide)
  have hb : handleBuiltin st.history (pyStrip raw) = none := by
    rw [hstrip]
    unfold handleBuiltin
    rw [hsplit]
    simp [hn1, hn2, hn3, hd, hn]
  have hr : histRewrite st.history (pyStrip raw) =
      .proceed ('!' :: (d ++ ' ' :: (r0 ++ [c]))) [] := by
    rw [hstrip]
    unfold histRewrite
    simp [hpi]
  have hstep : replStep cfg oracle st (.line raw) =
      execPhase cfg oracle st ('!' :: (d ++ ' ' :: (r0 ++ [c])))
        (logEvents cfg ('!' :: (d ++ ' ' :: (r0 ++ [c]))) ++ []) := by
    simp only [replStep]
    unfold replLine
    rw [if_neg hne, if_neg hx]
    rw [hstrip] at hb hr ⊢
    rw [hb, hr]
  rw [hstep]
  refine ⟨rfl, by simp [execPhase], by simp [execPhase], ?_, by simp [execPhase]⟩
  intro e hmem
  simp only [execPhase] at hmem
  rw [announce_mem_iff, announces_append, announces_append, announces_append,
    announces_logEvents, announces_preHookEvents, announces_runExecution] at hmem
  simp [announces] at hmem

/-- Witness for C10: the line !0 -a with a valid index 0 in history is
    executed literally, appended verbatim, and tokenized as two arguments. -/
theorem C10_trailing_text_literal_witness :
    (replStep cfgLs oracleLs ⟨0, ["-l".toList]⟩ (.line ("!0 -a".toList))).st.history
        = ["-l".toList, "!0 -a".toList] ∧
    spawnArgvs (replStep cfgLs oracleLs ⟨0, ["-l".toList]⟩ (.line ("!0 -a".toList))).events
        = [["ls".toList, "!0".toList, "-a".toList]] := by
  have h := C10_trailing_text_literal cfgLs oracleLs ⟨0, ["-l".toList]⟩
    ("!0 -a".toList) ("0".toList) ("-".toList) 'a' 0
    (by decide) (by decide) (by decide) (by decide) (by decide) (by decide)
  refine ⟨?_, ?_⟩
  · rw [h.2.1]
    decide
  · rw [h.2.2.2.2]
    decide

/-- C1 (code defect): with a one-second timeout and a child that runs five
    seconds, communicate raises subprocess.TimeoutExpired, which the
    `except TimeoutError` handler does not catch because TimeoutExpired
    derives from SubprocessError and not from the builtin TimeoutError;
    control falls to the generic `except Exception` reporter, so the child
    is never killed, no timed-out condition distinct from an ordinary
    execution error is surfaced, and the loop continues. -/
theorem C1_timeout_handler_dead :
    caughtByTimeoutError PyExc.timeoutExpired = false ∧
    (replStep cfgSleep oracleSleep ⟨0, []⟩ (.line ("5".toList))).exitLoop = false ∧
    Event.reportExecError ("subprocess.TimeoutExpired") ∈
      (replStep cfgSleep oracleSleep ⟨0, []⟩ (.line ("5".toList))).events ∧
    Event.killChild ∉ (replStep cfgSleep oracleSleep ⟨0, []⟩ (.line ("5".toList))).events ∧
    Event.reportTimedOut (some 1) ∉
      (replStep cfgSleep oracleSleep ⟨0, []⟩ (.line ("5".toList))).events := by
  decide

/-- C2 (counterexample): in the scenario with base command ls and inputs
    -l, !0, exit, the session history does not contain exactly one entry:
    the rewritten line is appended a second time. -/
theorem C2_scenario_counterexample : lsRun.st.history ≠ ["-l".toList] := by
  decide

/-- C2 (amended): in that scenario the executor is invoked exactly twice
    with the identical argument vector ls -l, the command counter ends at
    2, the run ends normally, and the session history holds two entries,
    -l at index 0 and -l at index 1. -/
theorem C2_scenario_amended :
    spawnArgvs lsRun.events = [["ls".toList, "-l".toList], ["ls".toList, "-l".toList]] ∧
    lsRun.st.counter = 2 ∧
    lsRun.st.history = ["-l".toList, "-l".toList] ∧
    lsRun.reason = .ended := by
  decide

end Replize
